import Mathlib

/-
Verification of the rides-api repository (a Django REST ride-tracking API)
against its natural-language specification.

The development is a shallow embedding of the data-access logic of the
repository: Django model rows become Lean structures, the database becomes
explicit lists of rows, managers and viewset query constructors become pure
functions on those lists, timestamps become integers (seconds), and request
handling becomes explicit Except-valued functions.  Framework behaviour that
the repository relies on (Django query-set semantics, DRF pagination and
ordering filters, Python dynamic attribute access) is embedded where a claim
depends on it, with a doc comment recording the semantics being modelled.
-/

namespace RidesApi

/-! ## Data model (src/rides/models.py) -/

/-- Row of the custom User model (models.py, class User).  Timestamps and the
inherited AbstractUser machinery are reduced to the fields the API reads. -/
structure User where
  id_user : Nat
  username : String
  email : String
  first_name : String
  last_name : String
  role : String
  phone_number : String
  password : String
  is_active : Bool
deriving DecidableEq

/-- Row of the Ride model (models.py, class Ride).  Coordinates are Django
FloatFields, modelled as real numbers; pickup_time as integer seconds. -/
structure Ride where
  id_ride : Nat
  status : String
  id_rider : Nat
  id_driver : Nat
  pickup_latitude : ℝ
  pickup_longitude : ℝ
  dropoff_latitude : ℝ
  dropoff_longitude : ℝ
  pickup_time : Int

/-- Row of the RideEvent model (models.py, class RideEvent).  created_at is
modelled as integer seconds since an arbitrary epoch. -/
structure RideEvent where
  id_ride_event : Nat
  id_ride : Nat
  description : String
  created_at : Int
deriving DecidableEq

/-- 24 hours in seconds: the timedelta(hours=24) used by RideEventManager. -/
def twenty_four_hours : Int := 24 * 60 * 60

/-! ## RideEventManager (models.py lines 59-73)

The custom manager is the single chokepoint for RideEvent retrieval.  Its
three entry points are embedded as functions of the current time and of the
full table contents. -/

/-- RideEventManager.get_queryset: the default query path, filtered to
created_at greater than or equal to now minus 24 hours. -/
def rideevent_get_queryset (now : Int) (db : List RideEvent) : List RideEvent :=
  db.filter (fun e => decide (now - twenty_four_hours ≤ e.created_at))

/-- RideEventManager.all_unfiltered: every event, no time filter. -/
def rideevent_all_unfiltered (db : List RideEvent) : List RideEvent :=
  db

/-- RideEventManager.for_ride: every event of one ride, no time filter. -/
def rideevent_for_ride (db : List RideEvent) (rid : Nat) : List RideEvent :=
  db.filter (fun e => e.id_ride == rid)

/-- RideEventViewSet.get_queryset (views.py lines 169-174): it starts from
RideEvent.objects, i.e. from the windowed default manager; select_related
only eager-loads related rows and does not change which rows are returned. -/
def rideevent_viewset_queryset (now : Int) (db : List RideEvent) : List RideEvent :=
  rideevent_get_queryset now db

/-- Relationship traversal ride.events (serializers.py RideListSerializer /
RideDetailSerializer events field, and the prefetch in RideViewSet).
Modelled Django semantics: the related manager composes the related model
default manager queryset with the foreign-key filter, so the 24-hour window
of RideEventManager.get_queryset applies before the ride filter.  The
repository test test_ride_events_relationship_respects_manager documents
exactly this behaviour. -/
def ride_nested_events (now : Int) (db : List RideEvent) (rid : Nat) : List RideEvent :=
  (rideevent_get_queryset now db).filter (fun e => e.id_ride == rid)

/-! ## Object-level operations of RideEventViewSet (views.py lines 149-174)

DRF semantics being modelled: retrieve, update, partial_update and destroy
all locate the target row with get_object, which looks the lookup value up
inside the queryset returned by get_queryset and raises a not-found response
when no row of that queryset matches.  The queryset of RideEventViewSet is
the windowed default manager queryset. -/

/-- get_object of RideEventViewSet: find the event with the given primary key
inside the windowed viewset queryset. -/
def rideevent_get_object (now : Int) (db : List RideEvent) (pk : Nat) : Option RideEvent :=
  (rideevent_viewset_queryset now db).find? (fun e => e.id_ride_event == pk)

/-- retrieve on /ride-events/pk: none models the not-found response. -/
def rideevent_retrieve (now : Int) (db : List RideEvent) (pk : Nat) : Option RideEvent :=
  rideevent_get_object now db pk

/-- update (PUT) on /ride-events/pk: on success returns the updated row and
the new table; when get_object finds nothing it returns none and the table
unchanged (the not-found response writes nothing). -/
def rideevent_update (now : Int) (db : List RideEvent) (pk : Nat)
    (newRide : Nat) (newDesc : String) : Option RideEvent × List RideEvent :=
  match rideevent_get_object now db pk with
  | none => (none, db)
  | some e =>
    let e2 : RideEvent := { e with id_ride := newRide, description := newDesc }
    (some e2, db.map (fun x => if x.id_ride_event == pk then e2 else x))

/-- PATCH on /ride-events/pk updating the description, same get_object path. -/
def rideevent_patch (now : Int) (db : List RideEvent) (pk : Nat)
    (newDesc : String) : Option RideEvent × List RideEvent :=
  match rideevent_get_object now db pk with
  | none => (none, db)
  | some e =>
    let e2 : RideEvent := { e with description := newDesc }
    (some e2, db.map (fun x => if x.id_ride_event == pk then e2 else x))

/-- destroy (DELETE) on /ride-events/pk: the Bool reports success; on a
not-found lookup the table is unchanged. -/
def rideevent_destroy (now : Int) (db : List RideEvent) (pk : Nat) :
    Bool × List RideEvent :=
  match rideevent_get_object now db pk with
  | none => (false, db)
  | some _ => (true, db.filter (fun x => x.id_ride_event != pk))

/-! ## Admin-only permission gate (permissions.py, views.py)

IsAdmin.has_permission is the single permission class of all three viewsets.
DRF semantics being modelled: check_permissions runs during request
initialisation, before the handler for the operation is dispatched, so a
denied request produces the rejection response without the handler (and hence
without any database query of the operation) running. -/

/-- The authenticated user attached to a request: none models request.user
being absent, is_authenticated false models the anonymous user. -/
structure RequestUser where
  is_authenticated : Bool
  role : String
deriving DecidableEq

/-- IsAdmin.has_permission (permissions.py lines 9-15), line for line:
no user or not authenticated gives False, otherwise role equals admin. -/
def has_permission (u : Option RequestUser) : Bool :=
  match u with
  | none => false
  | some user =>
    if user.is_authenticated = false then false
    else user.role == "admin"

/-- DRF dispatch with permission_classes equal to the singleton IsAdmin, for
an arbitrary operation handler over an arbitrary database type: the handler
runs only when has_permission accepts the request. -/
def dispatch {α β : Type} (u : Option RequestUser) (handler : α → β) (db : α) :
    Except String β :=
  if has_permission u then Except.ok (handler db) else Except.error "403 Forbidden"

/-! ## Cascade deletion (models.py: Ride.id_rider, Ride.id_driver, RideEvent.id_ride)

Both foreign keys of Ride and the foreign key of RideEvent are declared with
on_delete CASCADE.  Django semantics being modelled: deleting a row deletes
every row whose cascading foreign key references it, transitively, in the
same operation. -/

/-- The three relational tables. -/
structure Database where
  users : List User
  rides : List Ride
  events : List RideEvent

/-- A ride references the user as rider or as driver. -/
def user_owns_ride (uid : Nat) (r : Ride) : Bool :=
  r.id_rider == uid || r.id_driver == uid

/-- Deleting a ride: the ride disappears and, by the CASCADE on
RideEvent.id_ride, so does every event referencing it. -/
def delete_ride (db : Database) (rid : Nat) : Database :=
  { db with
    rides := db.rides.filter (fun r => r.id_ride != rid),
    events := db.events.filter (fun e => e.id_ride != rid) }

/-- Deleting a user: the user disappears, every ride referencing it as rider
or driver disappears (CASCADE on Ride.id_rider and Ride.id_driver), and every
event of such a ride disappears (the cascade continues through
RideEvent.id_ride). -/
def delete_user (db : Database) (uid : Nat) : Database :=
  { users := db.users.filter (fun u => u.id_user != uid),
    rides := db.rides.filter (fun r => !user_owns_ride uid r),
    events := db.events.filter (fun e =>
      !(db.rides.any (fun r => user_owns_ride uid r && r.id_ride == e.id_ride))) }

/-- Referential integrity: every ride points at existing users and every
event points at an existing ride. -/
def ref_integrity (db : Database) : Prop :=
  (∀ r ∈ db.rides,
    (∃ u ∈ db.users, u.id_user = r.id_rider) ∧ ∃ u ∈ db.users, u.id_user = r.id_driver) ∧
  ∀ e ∈ db.events, ∃ r ∈ db.rides, r.id_ride = e.id_ride

/-! ## Cached-count limit/offset pagination (pagination.py)

CachedCountLimitOffsetPagination overrides get_count of the DRF
LimitOffsetPagination.  The Django cache is modelled as an association list
from keys to a stored value plus its absolute expiry instant; cache.set with
timeout 300 stores the value until now plus 300 seconds.  The md5 hex digest
of the resolved query string is modelled as the identity encoding of that
string, which keeps the only property the code relies on: the key is stable
for identical effective queries. -/

/-- One cached count with its absolute expiry time. -/
structure CacheEntry where
  value : Nat
  expires_at : Int
deriving DecidableEq

/-- The Django cache backend, restricted to the pagination keys. -/
abbrev CountCache := List (String × CacheEntry)

/-- cache.get: the stored value, provided its expiry has not been reached. -/
def cache_get (now : Int) (c : CountCache) (k : String) : Option Nat :=
  match c.find? (fun p => p.fst == k) with
  | some p => if now < p.snd.expires_at then some p.snd.value else none
  | none => none

/-- cache.set with a timeout in seconds: the entry replaces any previous
entry of the same key and expires at now plus timeout. -/
def cache_set (now : Int) (c : CountCache) (k : String) (v : Nat)
    (timeout : Int) : CountCache :=
  (k, ⟨v, now + timeout⟩) :: c.filter (fun p => p.fst != k)

/-- The cache key built in get_count from the resolved query string. -/
def count_cache_key (query_str : String) : String :=
  "pagination_count_" ++ query_str

/-- default_limit of CachedCountLimitOffsetPagination. -/
def default_limit : Nat := 20

/-- max_limit of CachedCountLimitOffsetPagination. -/
def max_limit : Nat := 100

/-- CachedCountLimitOffsetPagination.get_count: consult the cache first; on a
hit return the cached value and leave the cache untouched; on a miss compute
the real count and store it with a 300 second expiry.  Returns the reported
count together with the cache state after the call. -/
def get_count {α : Type} (now : Int) (c : CountCache) (query_str : String)
    (qs : List α) : Nat × CountCache :=
  match cache_get now c (count_cache_key query_str) with
  | some v => (v, c)
  | none => (qs.length, cache_set now c (count_cache_key query_str) qs.length 300)

/-- paginate_queryset of the DRF LimitOffsetPagination with the overridden
get_count: the reported count comes from get_count; then the base class
checks the stored count, and when that count is zero or the offset exceeds
it the method returns the empty page without evaluating the queryset;
otherwise the returned page is the fresh slice of the queryset from offset
of length limit.  Because the stored count may come from the cache, the
empty-page check can fire on a stale count. -/
def paginate_queryset {α : Type} (now : Int) (c : CountCache) (qs : List α)
    (limit offset : Nat) (query_str : String) : Nat × List α × CountCache :=
  ((get_count now c query_str qs).fst,
   if (get_count now c query_str qs).fst = 0 ∨
       offset > (get_count now c query_str qs).fst then []
   else (qs.drop offset).take limit,
   (get_count now c query_str qs).snd)

/-- A sequence of list requests sharing one resolved query string: each
request carries its time and the table rows visible to it; the cache state
threads through, and the reported counts are collected in order. -/
def run_count_requests {α : Type} (query_str : String) :
    CountCache → List (Int × List α) → List Nat × CountCache
  | c, [] => ([], c)
  | c, (t, qs) :: rest =>
    let r := get_count t c query_str qs
    let rr := run_count_requests query_str r.snd rest
    (r.fst :: rr.fst, rr.snd)

/-! ## User creation (serializers.py UserCreateSerializer)

The serializer declares password as a write-only CharField with min_length 8
and creates the row through User.objects.create_user, which stores the
hashed credential.  Django semantics being modelled for the hashing: the
stored credential has the form algorithm-tag, dollar sign, then material
derived from the plaintext; the model keeps the properties the claims use,
namely that the stored string is deterministic in the plaintext and carries
the algorithm tag in front, so it never equals the plaintext itself. -/

/-- Minimum password length declared on the serializer field. -/
def min_password_length : Nat := 8

/-- The writable field set of UserCreateSerializer. -/
structure UserCreateInput where
  username : String
  email : String
  password : String
  first_name : String
  last_name : String
  role : String
  phone_number : String
deriving DecidableEq

/-- Django make_password, reduced to the shape of its output: the algorithm
tag followed by material derived from the plaintext. -/
def make_password (p : String) : String :=
  "pbkdf2_sha256$" ++ p

/-- Next auto-generated primary key. -/
def next_user_id (db : List User) : Nat :=
  db.foldr (fun u m => max (u.id_user + 1) m) 1

/-- POST /users/ through UserCreateSerializer: the min_length validator
rejects a short password with a per-field error before anything is written;
otherwise create_user stores the row with the hashed credential. -/
def user_create (db : List User) (inp : UserCreateInput) :
    Except (List (String × String)) (User × List User) :=
  if inp.password.length < min_password_length then
    Except.error [("password", "Ensure this field has at least 8 characters.")]
  else
    let u : User :=
      { id_user := next_user_id db, username := inp.username, email := inp.email,
        first_name := inp.first_name, last_name := inp.last_name, role := inp.role,
        phone_number := inp.phone_number, password := make_password inp.password,
        is_active := true }
    Except.ok (u, db ++ [u])

/-- The table contents after the create request, error or not. -/
def user_create_db (db : List User) (inp : UserCreateInput) : List User :=
  match user_create db inp with
  | Except.error _ => db
  | Except.ok r => r.snd

/-- The response body of a successful create: the readable serializer fields
as name-value pairs.  password is write_only, so it has no readable field. -/
def user_create_response (u : User) : List (String × String) :=
  [("username", u.username), ("email", u.email), ("first_name", u.first_name),
   ("last_name", u.last_name), ("role", u.role), ("phone_number", u.phone_number)]

/-! ## The login endpoint (auth_views.py CustomAuthToken.post)

The serializer of ObtainAuthToken validates the credentials and yields the
authenticated user, or a validation error response for bad credentials.  The
code then evaluates Token.objects.get_or_create(user=user), whose Django
return value is the pair of the token object and a created flag, and reads
the key attribute from that value.  Python attribute access on a pair is
embedded explicitly: it succeeds on a token object and raises AttributeError
on a tuple. -/

/-- A DRF authtoken row. -/
structure AuthToken where
  key : String
  user_id : Nat
deriving DecidableEq

/-- A Python value that is either a bare token object or the tuple returned
by get_or_create. -/
inductive TokenValue where
  | obj (t : AuthToken)
  | tuple (t : AuthToken) (created : Bool)
deriving DecidableEq

/-- Python attribute access value.key: a token object exposes its key; a
tuple has no key attribute, so the access raises AttributeError. -/
def token_key_attr : TokenValue → Except String String
  | TokenValue.obj t => Except.ok t.key
  | TokenValue.tuple _ _ => Except.error "AttributeError: tuple object has no attribute key"

/-- Token.objects.get_or_create(user=user): Django returns the pair of the
row (fetched or newly created) and the created flag.  The random key of a
new token is modelled as a function of the user id. -/
def token_get_or_create (tokens : List AuthToken) (uid : Nat) :
    TokenValue × List AuthToken :=
  match tokens.find? (fun t => t.user_id == uid) with
  | some t => (TokenValue.tuple t false, tokens)
  | none =>
    let t : AuthToken := { key := "tok" ++ toString uid, user_id := uid }
    (TokenValue.tuple t true, t :: tokens)

/-- Password check against the stored credential. -/
def check_password (raw hashed : String) : Bool :=
  hashed == make_password raw

/-- The credential validation performed by the ObtainAuthToken serializer:
look the username up and verify the password of an active account. -/
def authenticate_user (db : List User) (username password : String) : Option User :=
  match db.find? (fun u => u.username == username) with
  | some u => if u.is_active && check_password password u.password then some u else none
  | none => none

/-- The successful response body documented by CustomAuthToken.post. -/
structure LoginBody where
  token : String
  id_user : Nat
  username : String
  role : String
deriving DecidableEq

/-- The post-authentication part of CustomAuthToken.post: call get_or_create,
read the key attribute of its result, and respond with token plus user
fields.  An AttributeError from the attribute access propagates as an
unhandled exception. -/
def login_respond (u : User) (tokens : List AuthToken) :
    Except String (LoginBody × List AuthToken) :=
  match token_key_attr (token_get_or_create tokens u.id_user).fst with
  | Except.error e => Except.error e
  | Except.ok k =>
    Except.ok ({ token := k, id_user := u.id_user, username := u.username,
                 role := u.role }, (token_get_or_create tokens u.id_user).snd)

/-- CustomAuthToken.post: the serializer validation rejects bad credentials
with a 400 response, otherwise the endpoint builds the token response. -/
def login_post (db : List User) (tokens : List AuthToken)
    (username password : String) : Except String (LoginBody × List AuthToken) :=
  match authenticate_user db username password with
  | none => Except.error "400 Bad Request: unable to log in with provided credentials"
  | some u => login_respond u tokens

/-- C9 failing input: a stored user whose credentials are valid. -/
def alice : User :=
  { id_user := 1, username := "alice", email := "alice@example.com",
    first_name := "Alice", last_name := "L", role := "passenger",
    phone_number := "", password := make_password "password123", is_active := true }


/-! ## Distance annotation (views.py RideViewSet.get_queryset and _annotate_distance)

The distance expression is computed by the database over SQL double
precision floats; it is embedded over the real numbers.  The SQL Radians
function converts degrees to radians. -/

/-- The SQL Radians conversion used by the annotation. -/
noncomputable def radians (x : ℝ) : ℝ :=
  x * Real.pi / 180

/-- RideViewSet._annotate_distance (views.py lines 133-139): the annotated
distance of one ride for reference coordinates lat and lng. -/
noncomputable def annotate_distance (lat lng : ℝ) (r : Ride) : ℝ :=
  6371 * Real.arccos
    (Real.cos (radians lat) * Real.cos (radians r.pickup_latitude) *
       Real.cos (radians r.pickup_longitude - radians lng) +
     Real.sin (radians lat) * Real.sin (radians r.pickup_latitude))

/-- The distance formula exactly as the specification writes it, for the
refinement comparison with the annotation taken from the code. -/
noncomputable def distance_km_spec (lat_ref lng_ref plat plng : ℝ) : ℝ :=
  6371 * Real.arccos
    (Real.cos (radians lat_ref) * Real.cos (radians plat) *
       Real.cos (radians plng - radians lng_ref) +
     Real.sin (radians lat_ref) * Real.sin (radians plat))

/-- The first ride of the scenario of the claim: pickup at the reference
point (40.7128, -74.0060). -/
noncomputable def rideA : Ride :=
  { id_ride := 1, status := "pickup", id_rider := 1, id_driver := 2,
    pickup_latitude := 40.7128, pickup_longitude := -74.0060,
    dropoff_latitude := 40.7580, dropoff_longitude := -73.9855,
    pickup_time := 0 }

/-- The second ride of the scenario: pickup at (45.0, -80.0). -/
noncomputable def rideB : Ride :=
  { id_ride := 2, status := "pickup", id_rider := 1, id_driver := 2,
    pickup_latitude := 45.0, pickup_longitude := -80.0,
    dropoff_latitude := 46.0, dropoff_longitude := -81.0,
    pickup_time := 0 }

/-- An ascending ordering of the rides by annotated distance: the output is
a permutation of the queryset rows sorted by the distance key.  Tie order is
deliberately unspecified, matching the specification. -/
def ascending_by_distance (lat lng : ℝ) (src out : List Ride) : Prop :=
  out.Perm src ∧
    out.Sorted (fun r s => annotate_distance lat lng r ≤ annotate_distance lat lng s)

/-! ## Ride list query construction and ordering (views.py RideViewSet)

String scanning is embedded structurally over character lists so that every
step reduces in the kernel.  parse_float models Python float() on ordinary
signed decimal literals, the only shape of reference coordinate the API is
meant to accept; any other input is a parse failure. -/

/-- Does the pattern occur as a prefix of the text. -/
def prefix_at (pat text : List Char) : Bool :=
  match pat, text with
  | [], _ => true
  | _ :: _, [] => false
  | p :: ps, c :: cs => p == c && prefix_at ps cs

/-- Does the pattern occur anywhere in the text: the Python in operator on
strings. -/
def contains_sub (pat : List Char) : List Char → Bool
  | [] => prefix_at pat []
  | c :: cs => prefix_at pat (c :: cs) || contains_sub pat cs

/-- String containment, Python style. -/
def contains_substr (s sub : String) : Bool :=
  contains_sub sub.data s.data

/-- Split a character list on a separator character. -/
def split_on_char (sep : Char) : List Char → List (List Char)
  | [] => [[]]
  | c :: cs =>
    match split_on_char sep cs, c == sep with
    | r, true => [] :: r
    | [], false => [[c]]
    | h :: t, false => (c :: h) :: t

/-- Trim spaces from both ends, Python str.strip restricted to spaces. -/
def trim_chars (cs : List Char) : List Char :=
  ((cs.dropWhile (fun c => c == ' ')).reverse.dropWhile (fun c => c == ' ')).reverse

/-- The numeric value of a digit string. -/
def digits_to_nat (cs : List Char) : Nat :=
  cs.foldl (fun acc c => 10 * acc + (c.toNat - 48)) 0

/-- Parse an unsigned decimal literal: digits, optionally around one point,
with at least one digit present. -/
def parse_unsigned_decimal (cs : List Char) : Option ℚ :=
  match split_on_char '.' cs with
  | [ip] =>
    if ip.isEmpty then none
    else if ip.all Char.isDigit then some ((digits_to_nat ip : ℚ))
    else none
  | [ip, fp] =>
    if ip.isEmpty && fp.isEmpty then none
    else if ip.all Char.isDigit && fp.all Char.isDigit then
      some ((digits_to_nat ip : ℚ) + (digits_to_nat fp : ℚ) / ((10 : ℚ) ^ fp.length))
    else none
  | _ => none

/-- Python float() on ordinary signed decimal literals; anything else fails
to parse. -/
def parse_float (s : String) : Option ℚ :=
  match s.data with
  | [] => none
  | '-' :: rest => (parse_unsigned_decimal rest).map (fun q => -q)
  | '+' :: rest => parse_unsigned_decimal rest
  | cs => parse_unsigned_decimal cs

/-- The queryset built by RideViewSet.get_queryset: the visible rows plus
the reference coordinates of the distance annotation when it was attached;
none when no annotation was attached. -/
structure AnnotatedQuery where
  rows : List Ride
  distance_ref : Option (ℚ × ℚ)

/-- RideViewSet.get_queryset (views.py lines 95-115): the annotation is
attached only when the ordering parameter contains the substring distance,
both lat and lng are supplied and non-empty (Python truthiness of the two
query parameters), and both parse as floats; a parse failure is swallowed
and the annotation is skipped. -/
def ride_get_queryset (ordering_param lat_param lng_param : Option String)
    (db : List Ride) : AnnotatedQuery :=
  if contains_substr (ordering_param.getD "") "distance" then
    match lat_param, lng_param with
    | some lat, some lng =>
      if lat.isEmpty || lng.isEmpty then { rows := db, distance_ref := none }
      else
        match parse_float lat, parse_float lng with
        | some la, some ln => { rows := db, distance_ref := some (la, ln) }
        | _, _ => { rows := db, distance_ref := none }
    | _, _ => { rows := db, distance_ref := none }
  else { rows := db, distance_ref := none }

/-- ordering_fields declared on RideViewSet. -/
def ordering_fields : List String := ["pickup_time", "distance"]

/-- The default ordering declared on RideViewSet. -/
def default_ordering : List String := ["-pickup_time"]

/-- Strip the descending marker from an ordering term, DRF style. -/
def base_term (t : String) : String :=
  match t.data with
  | '-' :: rest => String.mk rest
  | _ => t

/-- The comma-separated ordering terms of the request, stripped. -/
def requested_ordering (p : Option String) : List String :=
  match p with
  | none => []
  | some s => (split_on_char ',' s.data).map (fun cs => String.mk (trim_chars cs))

/-- DRF OrderingFilter.remove_invalid_fields with an explicit
ordering_fields list: keep exactly the terms whose base name is declared. -/
def remove_invalid_fields (terms : List String) : List String :=
  terms.filter (fun t => ordering_fields.contains (base_term t))

/-- DRF OrderingFilter.get_ordering: the surviving requested terms, or the
default ordering when none survive (or no ordering was requested). -/
def get_ordering (p : Option String) : List String :=
  let v := remove_invalid_fields (requested_ordering p)
  if v.isEmpty then default_ordering else v

/-- The concrete orderable columns of the Ride model. -/
def ride_sortable_columns : List String :=
  ["id_ride", "status", "id_rider", "id_driver", "pickup_latitude",
   "pickup_longitude", "dropoff_latitude", "dropoff_longitude", "pickup_time"]

/-- Modelled Django QuerySet.order_by name resolution: an ordering term
resolves when its base name is a model field or a present annotation of the
queryset. -/
def term_resolvable (q : AnnotatedQuery) (t : String) : Bool :=
  ride_sortable_columns.contains (base_term t) ||
    (base_term t == "distance" && q.distance_ref.isSome)

/-- Modelled Django QuerySet.order_by: every requested term must resolve,
otherwise the query raises FieldError, which no layer of the view catches
and which therefore fails the request.  On success the response is built
from the queryset rows in the requested order; the row permutation itself is
specified relationally by ascending_by_distance. -/
def apply_ordering (q : AnnotatedQuery) (terms : List String) :
    Except String AnnotatedQuery :=
  if terms.all (term_resolvable q) then Except.ok q
  else Except.error "FieldError: cannot resolve keyword distance into field"

/-- The ride list request pipeline up to ordering resolution: build the
queryset from the query parameters, then apply the effective ordering. -/
def ride_list_request (ordering_param lat_param lng_param : Option String)
    (db : List Ride) : Except String AnnotatedQuery :=
  apply_ordering (ride_get_queryset ordering_param lat_param lng_param db)
    (get_ordering ordering_param)

/-- The condition of the claim on the reference coordinates: lat or lng is
missing, empty, or fails to parse as a number. -/
def latlng_malformed (lat_param lng_param : Option String) : Prop :=
  (lat_param = none ∨ lat_param = some "" ∨
    ∃ s, lat_param = some s ∧ parse_float s = none) ∨
  (lng_param = none ∨ lng_param = some "" ∨
    ∃ s, lng_param = some s ∧ parse_float s = none)

/-! ## Theorems -/
theorem mem_rideevent_get_queryset {now : Int} {db : List RideEvent} {e : RideEvent} :
    e ∈ rideevent_get_queryset now db ↔ e ∈ db ∧ now - twenty_four_hours ≤ e.created_at := by
  simp [rideevent_get_queryset, List.mem_filter]

theorem mem_rideevent_for_ride {db : List RideEvent} {e : RideEvent} {rid : Nat} :
    e ∈ rideevent_for_ride db rid ↔ e ∈ db ∧ e.id_ride = rid := by
  simp [rideevent_for_ride, List.mem_filter]

theorem mem_ride_nested_events {now : Int} {db : List RideEvent} {e : RideEvent} {rid : Nat} :
    e ∈ ride_nested_events now db rid ↔
      e ∈ db ∧ now - twenty_four_hours ≤ e.created_at ∧ e.id_ride = rid := by
  simp [ride_nested_events, List.mem_filter, mem_rideevent_get_queryset, and_assoc]

/-- C1: an event whose created_at is older than 24 hours at query time is never
returned by the default query path used by the ride-events viewset, while the
ride-scoped path for_ride and the unfiltered path all_unfiltered do return it;
an event created within the last 24 hours is returned by all three paths. -/
theorem c1_event_default_window (now : Int) (db : List RideEvent) (e : RideEvent)
    (hmem : e ∈ db) :
    (e.created_at < now - twenty_four_hours →
      e ∉ rideevent_viewset_queryset now db ∧
      e ∈ rideevent_for_ride db e.id_ride ∧
      e ∈ rideevent_all_unfiltered db) ∧
    (now - twenty_four_hours ≤ e.created_at →
      e ∈ rideevent_viewset_queryset now db ∧
      e ∈ rideevent_for_ride db e.id_ride ∧
      e ∈ rideevent_all_unfiltered db) := by
  constructor
  · intro hold
    refine ⟨?_, ?_, hmem⟩
    · intro hin
      have h := (@mem_rideevent_get_queryset now db e).mp hin
      omega
    · exact mem_rideevent_for_ride.mpr ⟨hmem, rfl⟩
  · intro hrecent
    exact ⟨mem_rideevent_get_queryset.mpr ⟨hmem, hrecent⟩,
      mem_rideevent_for_ride.mpr ⟨hmem, rfl⟩, hmem⟩

theorem c1_event_default_window_witness :
    (⟨1, 7, "old event", 0⟩ : RideEvent) ∉
        rideevent_viewset_queryset 100000 [⟨1, 7, "old event", 0⟩] ∧
    (⟨1, 7, "old event", 0⟩ : RideEvent) ∈
        rideevent_for_ride [⟨1, 7, "old event", 0⟩] 7 ∧
    (⟨1, 7, "old event", 0⟩ : RideEvent) ∈
        rideevent_all_unfiltered [⟨1, 7, "old event", 0⟩] :=
  (c1_event_default_window 100000 [⟨1, 7, "old event", 0⟩] ⟨1, 7, "old event", 0⟩
    (by simp)).1 (by decide)

/-- C2: the 24-hour window applies transitively through the parent ride: an
event of a ride that is older than 24 hours is absent from the nested events
traversal of that ride, while the ride-scoped escape hatch for_ride still
returns it; a recent event of the ride is present in the nested traversal. -/
theorem c2_nested_events_window (now : Int) (db : List RideEvent) (e : RideEvent)
    (rid : Nat) (hmem : e ∈ db) (hride : e.id_ride = rid) :
    (e.created_at < now - twenty_four_hours →
      e ∉ ride_nested_events now db rid ∧ e ∈ rideevent_for_ride db rid) ∧
    (now - twenty_four_hours ≤ e.created_at →
      e ∈ ride_nested_events now db rid) := by
  constructor
  · intro hold
    refine ⟨?_, mem_rideevent_for_ride.mpr ⟨hmem, hride⟩⟩
    intro hin
    have h := mem_ride_nested_events.mp hin
    omega
  · intro hrecent
    exact mem_ride_nested_events.mpr ⟨hmem, hrecent, hride⟩

theorem c2_nested_events_window_witness :
    (⟨1, 7, "old event", 0⟩ : RideEvent) ∉
        ride_nested_events 100000 [⟨1, 7, "old event", 0⟩] 7 ∧
    (⟨1, 7, "old event", 0⟩ : RideEvent) ∈
        rideevent_for_ride [⟨1, 7, "old event", 0⟩] 7 :=
  (c2_nested_events_window 100000 [⟨1, 7, "old event", 0⟩] ⟨1, 7, "old event", 0⟩ 7
    (by simp) rfl).1 (by decide)

theorem rideevent_get_object_eq_none {now : Int} {db : List RideEvent} {e : RideEvent}
    (hmem : e ∈ db) (hold : e.created_at < now - twenty_four_hours)
    (huniq : ∀ e2 ∈ db, e2.id_ride_event = e.id_ride_event → e2 = e) :
    rideevent_get_object now db e.id_ride_event = none := by
  rw [rideevent_get_object, List.find?_eq_none]
  intro x hx
  have hx2 := (@mem_rideevent_get_queryset now db x).mp hx
  intro hbeq
  have hid : x.id_ride_event = e.id_ride_event := by simpa using hbeq
  have hxe : x = e := huniq x hx2.1 hid
  subst hxe
  omega

/-- C10: for an existing event older than 24 hours, retrieve, update,
partial-update and delete addressed to /ride-events/pk all fail with
not-found (the windowed default manager hides the row), and the stored table
is left unchanged by each of them. -/
theorem c10_old_event_immutable (now : Int) (db : List RideEvent) (e : RideEvent)
    (hmem : e ∈ db) (hold : e.created_at < now - twenty_four_hours)
    (huniq : ∀ e2 ∈ db, e2.id_ride_event = e.id_ride_event → e2 = e) :
    rideevent_retrieve now db e.id_ride_event = none ∧
    (∀ newRide newDesc,
      rideevent_update now db e.id_ride_event newRide newDesc = (none, db)) ∧
    (∀ newDesc, rideevent_patch now db e.id_ride_event newDesc = (none, db)) ∧
    rideevent_destroy now db e.id_ride_event = (false, db) := by
  have hnone := rideevent_get_object_eq_none hmem hold huniq
  refine ⟨hnone, ?_, ?_, ?_⟩
  · intro newRide newDesc
    rw [rideevent_update, hnone]
  · intro newDesc
    rw [rideevent_patch, hnone]
  · rw [rideevent_destroy, hnone]

theorem c10_old_event_immutable_witness :
    rideevent_retrieve 100000 [⟨1, 7, "old event", 0⟩] 1 = none ∧
    rideevent_update 100000 [⟨1, 7, "old event", 0⟩] 1 9 "edited" =
      (none, [⟨1, 7, "old event", 0⟩]) ∧
    rideevent_patch 100000 [⟨1, 7, "old event", 0⟩] 1 "edited" =
      (none, [⟨1, 7, "old event", 0⟩]) ∧
    rideevent_destroy 100000 [⟨1, 7, "old event", 0⟩] 1 =
      (false, [⟨1, 7, "old event", 0⟩]) := by
  have h := c10_old_event_immutable 100000 [⟨1, 7, "old event", 0⟩]
    ⟨1, 7, "old event", 0⟩ (by simp) (by decide) (by decide)
  exact ⟨h.1, h.2.1 9 "edited", h.2.2.1 "edited", h.2.2.2⟩

/-- C6: a caller that is not an authenticated admin (including the
unauthenticated caller) is rejected uniformly for every operation on every
resource, and the rejection is computed without consulting the database (the
response does not depend on the database value); every authenticated caller
with role admin passes the permission check. -/
theorem c6_admin_only_gate :
    (∀ (α β : Type) (u : Option RequestUser) (handler : α → β) (db db2 : α),
      has_permission u = false →
        dispatch u handler db = Except.error "403 Forbidden" ∧
        dispatch u handler db = dispatch u handler db2) ∧
    (∀ user : RequestUser,
      has_permission (some user) = true ↔
        user.is_authenticated = true ∧ user.role = "admin") ∧
    has_permission none = false := by
  refine ⟨?_, ?_, rfl⟩
  · intro α β u handler db db2 hdeny
    rw [dispatch, dispatch, hdeny]
    exact ⟨rfl, rfl⟩
  · intro user
    rw [has_permission]
    constructor
    · intro h
      by_cases hauth : user.is_authenticated = false
      · rw [if_pos hauth] at h
        exact absurd h (by simp)
      · rw [if_neg hauth] at h
        exact ⟨by simpa using hauth, by simpa using h⟩
    · rintro ⟨hauth, hrole⟩
      rw [hauth, hrole]
      simp

theorem c6_admin_only_gate_witness :
    dispatch (α := Nat) (β := Nat) (some ⟨true, "driver"⟩) (fun n => n + 1) 0 =
      Except.error "403 Forbidden" ∧
    dispatch (α := Nat) (β := Nat) (some ⟨true, "driver"⟩) (fun n => n + 1) 0 =
      dispatch (some ⟨true, "driver"⟩) (fun n => n + 1) 5 ∧
    has_permission (some ⟨true, "admin"⟩) = true :=
  ⟨(c6_admin_only_gate.1 Nat Nat (some ⟨true, "driver"⟩) (fun n => n + 1) 0 5
      (by decide)).1,
   (c6_admin_only_gate.1 Nat Nat (some ⟨true, "driver"⟩) (fun n => n + 1) 0 5
      (by decide)).2,
   (c6_admin_only_gate.2.1 ⟨true, "admin"⟩).mpr ⟨rfl, rfl⟩⟩

/-- C7: deleting a user removes every ride referencing it as rider or driver;
deleting a ride removes every event referencing it; both delete operations
preserve referential integrity, so no surviving ride references a deleted
user and no surviving event references a deleted ride. -/
theorem c7_cascade_delete :
    (∀ (db : Database) (uid : Nat) (r : Ride), r ∈ db.rides →
      (r.id_rider = uid ∨ r.id_driver = uid) → r ∉ (delete_user db uid).rides) ∧
    (∀ (db : Database) (rid : Nat) (e : RideEvent), e ∈ db.events →
      e.id_ride = rid → e ∉ (delete_ride db rid).events) ∧
    (∀ (db : Database) (uid : Nat),
      ref_integrity db → ref_integrity (delete_user db uid)) ∧
    (∀ (db : Database) (rid : Nat),
      ref_integrity db → ref_integrity (delete_ride db rid)) := by
  refine ⟨?_, ?_, ?_, ?_⟩
  · intro db uid r _ howns hin
    have h := List.mem_filter.mp hin
    have howns2 : user_owns_ride uid r = true := by
      rw [user_owns_ride]
      rcases howns with h1 | h1 <;> simp [h1]
    simp [howns2] at h
  · intro db rid e _ hride hin
    have h := List.mem_filter.mp hin
    simp [hride] at h
  · intro db uid hint
    constructor
    · intro r hr
      have h := List.mem_filter.mp hr
      have hsurv : user_owns_ride uid r = false := by
        simpa using h.2
      have hrefs := hint.1 r h.1
      have hner : r.id_rider ≠ uid := by
        intro hq
        simp [user_owns_ride, hq] at hsurv
      have hned : r.id_driver ≠ uid := by
        intro hq
        simp [user_owns_ride, hq] at hsurv
      obtain ⟨⟨u1, hu1, hid1⟩, ⟨u2, hu2, hid2⟩⟩ := hrefs
      constructor
      · exact ⟨u1, List.mem_filter.mpr ⟨hu1, by simp [hid1, hner]⟩, hid1⟩
      · exact ⟨u2, List.mem_filter.mpr ⟨hu2, by simp [hid2, hned]⟩, hid2⟩
    · intro e he
      have h := List.mem_filter.mp he
      have hnoany : db.rides.any
          (fun r => user_owns_ride uid r && r.id_ride == e.id_ride) = false := by
        simpa using h.2
      obtain ⟨r0, hr0, hid0⟩ := hint.2 e h.1
      have hr0surv : user_owns_ride uid r0 = false := by
        by_contra hc
        have hc2 : user_owns_ride uid r0 = true := by
          revert hc
          cases user_owns_ride uid r0 <;> simp
        have : db.rides.any
            (fun r => user_owns_ride uid r && r.id_ride == e.id_ride) = true :=
          List.any_eq_true.mpr ⟨r0, hr0, by simp [hc2, hid0]⟩
        rw [this] at hnoany
        exact absurd hnoany (by simp)
      exact ⟨r0, List.mem_filter.mpr ⟨hr0, by simp [hr0surv]⟩, hid0⟩
  · intro db rid hint
    constructor
    · intro r hr
      have h := List.mem_filter.mp hr
      exact hint.1 r h.1
    · intro e he
      have h := List.mem_filter.mp he
      have hne : e.id_ride ≠ rid := by simpa using h.2
      obtain ⟨r0, hr0, hid0⟩ := hint.2 e h.1
      have hr0ne : r0.id_ride ≠ rid := by
        rw [hid0]
        exact hne
      exact ⟨r0, List.mem_filter.mpr ⟨hr0, by simp [hr0ne]⟩, hid0⟩

theorem c7_cascade_delete_witness :
    (⟨1, 5, "arrived", 0⟩ : RideEvent) ∉
      (delete_ride ⟨[], [], [⟨1, 5, "arrived", 0⟩]⟩ 5).events :=
  c7_cascade_delete.2.1 ⟨[], [], [⟨1, 5, "arrived", 0⟩]⟩ 5 ⟨1, 5, "arrived", 0⟩
    (by simp) rfl

theorem cache_get_cache_set {t now timeout : Int} {c : CountCache} {k : String} {v : Nat} :
    cache_get t (cache_set now c k v timeout) k =
      if t < now + timeout then some v else none := by
  rw [cache_set, cache_get]
  simp [List.find?]

theorem run_count_requests_all_hits {α : Type} (query_str : String) (n : Nat)
    (lo hi : Int) (c : CountCache)
    (hc : ∀ t : Int, lo ≤ t → t < hi → cache_get t c (count_cache_key query_str) = some n)
    (reqs : List (Int × List α)) (hreqs : ∀ p ∈ reqs, lo ≤ p.fst ∧ p.fst < hi) :
    run_count_requests query_str c reqs = (List.replicate reqs.length n, c) := by
  induction reqs with
  | nil => rfl
  | cons hd tl ih =>
    have hhd := hreqs hd (by simp)
    have hhit : get_count hd.fst c query_str hd.snd = (n, c) := by
      rw [get_count, hc hd.fst hhd.1 hhd.2]
    have htl : ∀ p ∈ tl, lo ≤ p.fst ∧ p.fst < hi := by
      intro p hp
      exact hreqs p (List.mem_cons_of_mem hd hp)
    obtain ⟨t, qs⟩ := hd
    rw [run_count_requests]
    simp only at hhit
    rw [hhit]
    simp only
    rw [ih htl]
    simp [List.replicate]

/-- C3, amended: the count cache is consulted before computing: a hit returns
the cached value with the cache untouched (no recomputation, whatever the
rows now are); a miss computes the real count and stores it with a 300
second expiry; after an initial miss, every request with the same resolved
query within the 300 second window reports the identical count even though
each request may see different rows; the default page size is 20 and the
maximum page size is 100.  Rows are never cached: whenever the reported
count is nonzero and not exceeded by the offset, the returned page is the
fresh slice of the current rows, and the cache after pagination is exactly
the cache left by get_count, which holds only the count.  However, the page
is not always computed fresh: when the reported (possibly stale cached)
count is zero or smaller than the offset, the empty page is returned without
consulting the current rows. -/
theorem c3_cached_count_pagination :
    (∀ (α : Type) (now : Int) (c : CountCache) (q : String) (v : Nat) (qs : List α),
      cache_get now c (count_cache_key q) = some v → get_count now c q qs = (v, c)) ∧
    (∀ (α : Type) (now : Int) (c : CountCache) (q : String) (qs : List α),
      cache_get now c (count_cache_key q) = none →
        get_count now c q qs =
          (qs.length, cache_set now c (count_cache_key q) qs.length 300)) ∧
    (∀ (α : Type) (now : Int) (c : CountCache) (q : String) (qs : List α)
        (limit offset : Nat),
      (¬((get_count now c q qs).fst = 0 ∨ offset > (get_count now c q qs).fst) →
        (paginate_queryset now c qs limit offset q).snd.fst =
          (qs.drop offset).take limit) ∧
      (((get_count now c q qs).fst = 0 ∨ offset > (get_count now c q qs).fst) →
        (paginate_queryset now c qs limit offset q).snd.fst = ([] : List α)) ∧
      (paginate_queryset now c qs limit offset q).snd.snd = (get_count now c q qs).snd) ∧
    (∀ (α : Type) (q : String) (c : CountCache) (t0 : Int) (qs0 : List α)
        (reqs : List (Int × List α)),
      cache_get t0 c (count_cache_key q) = none →
      (∀ p ∈ reqs, t0 ≤ p.fst ∧ p.fst < t0 + 300) →
        (run_count_requests q c ((t0, qs0) :: reqs)).fst =
          List.replicate (reqs.length + 1) qs0.length) ∧
    default_limit = 20 ∧ max_limit = 100 := by
  refine ⟨?_, ?_, ?_, ?_, rfl, rfl⟩
  · intro α now c q v qs hhit
    rw [get_count, hhit]
  · intro α now c q qs hmiss
    rw [get_count, hmiss]
  · intro α now c q qs limit offset
    refine ⟨?_, ?_, rfl⟩
    · intro hguard
      rw [paginate_queryset]
      simp only [if_neg hguard]
    · intro hguard
      rw [paginate_queryset]
      simp only [if_pos hguard]
  · intro α q c t0 qs0 reqs hmiss hreqs
    have hfirst : get_count t0 c q qs0 =
        (qs0.length, cache_set t0 c (count_cache_key q) qs0.length 300) := by
      rw [get_count, hmiss]
    have hc : ∀ t : Int, t0 ≤ t → t < t0 + 300 →
        cache_get t (cache_set t0 c (count_cache_key q) qs0.length 300)
          (count_cache_key q) = some qs0.length := by
      intro t _ ht2
      rw [cache_get_cache_set, if_pos ht2]
    have hrest := run_count_requests_all_hits q qs0.length t0 (t0 + 300)
      (cache_set t0 c (count_cache_key q) qs0.length 300) hc reqs hreqs
    rw [run_count_requests, hfirst]
    simp only
    rw [hrest]
    simp [List.replicate]

theorem c3_cached_count_pagination_witness :
    get_count 1000 [(count_cache_key "q", ⟨7, 1200⟩)] "q" [0, 1, 2] = (7, [(count_cache_key "q", ⟨7, 1200⟩)]) ∧
    (run_count_requests "q" [] [((1000 : Int), [0, 1, 2]), ((1100 : Int), [0, 1, 2, 3, 4]), ((1299 : Int), ([] : List Nat))]).fst =
      List.replicate 3 3 ∧
    (paginate_queryset 1000 [] [10, 20, 30, 40] 2 1 "q").snd.fst = [20, 30] := by
  refine ⟨?_, ?_, ?_⟩
  · exact c3_cached_count_pagination.1 Nat 1000 [(count_cache_key "q", ⟨7, 1200⟩)] "q" 7 [0, 1, 2] (by decide)
  · have h := c3_cached_count_pagination.2.2.2.1 Nat "q" [] 1000 [0, 1, 2]
      [((1100 : Int), [0, 1, 2, 3, 4]), ((1299 : Int), ([] : List Nat))] (by decide) (by decide)
    simpa using h
  · have h := (c3_cached_count_pagination.2.2.1 Nat 1000 [] "q" [10, 20, 30, 40] 2 1).1
      (by decide)
    exact h.trans (by decide)

/-- C3, counterexample to the claim as stated: a stale cached count of zero
(stored while the table was empty and still unexpired after a row was
inserted) makes the pagination return the empty page even though the fresh
slice of the current rows is non-empty, so the returned page is not always
computed fresh. -/
theorem c3_counterexample_stale_count_empty_page :
    (paginate_queryset 1000 [(count_cache_key "q", ⟨0, 1200⟩)] [7] 20 0 "q").snd.fst =
      ([] : List Nat) ∧
    (([7] : List Nat).drop 0).take 20 = [7] ∧
    (paginate_queryset 1000 [(count_cache_key "q", ⟨0, 1200⟩)] [7] 20 0 "q").snd.fst ≠
      (([7] : List Nat).drop 0).take 20 := by
  refine ⟨?_, ?_, ?_⟩ <;> decide

/-- C8: creating a user with a password shorter than 8 characters fails
validation and writes nothing; with 8 or more characters it succeeds, the
stored credential is the hash and never equals the plaintext, and the
response body has no password field. -/
theorem c8_password_rules :
    min_password_length = 8 ∧
    (∀ (db : List User) (inp : UserCreateInput), inp.password.length < 8 →
      user_create db inp =
        Except.error [("password", "Ensure this field has at least 8 characters.")] ∧
      user_create_db db inp = db) ∧
    (∀ (db : List User) (inp : UserCreateInput), 8 ≤ inp.password.length →
      ∃ u : User, user_create db inp = Except.ok (u, db ++ [u]) ∧
        u.password = make_password inp.password ∧
        u.password ≠ inp.password ∧
        "password" ∉ (user_create_response u).map Prod.fst) := by
  refine ⟨rfl, ?_, ?_⟩
  · intro db inp hshort
    have hcond : inp.password.length < min_password_length := hshort
    constructor
    · rw [user_create, if_pos hcond]
    · rw [user_create_db, user_create, if_pos hcond]
  · intro db inp hlong
    have hcond : ¬ inp.password.length < min_password_length := by
      rw [min_password_length]
      omega
    refine ⟨{ id_user := next_user_id db, username := inp.username,
              email := inp.email, first_name := inp.first_name,
              last_name := inp.last_name, role := inp.role,
              phone_number := inp.phone_number,
              password := make_password inp.password,
              is_active := true }, ?_, rfl, ?_, ?_⟩
    · rw [user_create, if_neg hcond]
    · intro heq
      have hlen := congrArg String.length heq
      rw [make_password, String.length_append] at hlen
      have h14 : ("pbkdf2_sha256$" : String).length = 14 := rfl
      rw [h14] at hlen
      omega
    · simp [user_create_response]

theorem c8_password_rules_witness :
    user_create [] ⟨"bob", "b@x.io", "short", "Bob", "B", "driver", ""⟩ =
      Except.error [("password", "Ensure this field has at least 8 characters.")] ∧
    user_create_db [] ⟨"bob", "b@x.io", "short", "Bob", "B", "driver", ""⟩ = [] ∧
    make_password "securepass123" ≠ "securepass123" := by
  have hshort := (c8_password_rules.2.1 []
    ⟨"bob", "b@x.io", "short", "Bob", "B", "driver", ""⟩ (by decide))
  have hlong := c8_password_rules.2.2 []
    ⟨"bob", "b@x.io", "securepass123", "Bob", "B", "driver", ""⟩ (by decide)
  obtain ⟨u, hok, hpw, hne, -⟩ := hlong
  exact ⟨hshort.1, hshort.2, by rw [← hpw]; exact hne⟩

/-- C9: evaluating the login endpoint at a valid username and password pair.
The credentials validate, yet the endpoint does not return the documented
token response: get_or_create yields the tuple of token and created flag,
the code reads the key attribute from that tuple, and the access raises
AttributeError, so every valid login crashes instead of succeeding. -/
theorem c9_login_attribute_error :
    authenticate_user [alice] "alice" "password123" = some alice ∧
    login_post [alice] [] "alice" "password123" =
      Except.error "AttributeError: tuple object has no attribute key" ∧
    (∀ (db : List User) (tokens : List AuthToken) (username password : String)
        (u : User), authenticate_user db username password = some u →
      login_post db tokens username password =
        Except.error "AttributeError: tuple object has no attribute key") := by
  have hgen : ∀ (db : List User) (tokens : List AuthToken)
      (username password : String) (u : User),
      authenticate_user db username password = some u →
      login_post db tokens username password =
        Except.error "AttributeError: tuple object has no attribute key" := by
    intro db tokens username password u hauth
    have hbody : login_post db tokens username password = login_respond u tokens := by
      unfold login_post
      rw [hauth]
    rw [hbody]
    unfold login_respond token_get_or_create
    cases hfind : tokens.find? (fun t => t.user_id == u.id_user) with
    | none => rfl
    | some t => rfl
  have hauth : authenticate_user [alice] "alice" "password123" = some alice := by
    decide
  exact ⟨hauth, hgen [alice] [] "alice" "password123" alice hauth, hgen⟩

theorem c9_login_attribute_error_witness :
    login_post [alice] [⟨"tok1", 1⟩] "alice" "password123" =
      Except.error "AttributeError: tuple object has no attribute key" :=
  c9_login_attribute_error.2.2 [alice] [⟨"tok1", 1⟩] "alice" "password123" alice
    (by decide)


theorem annotate_distance_self (r : Ride) :
    annotate_distance r.pickup_latitude r.pickup_longitude r = 0 := by
  unfold annotate_distance
  rw [sub_self, Real.cos_zero, mul_one]
  have h : Real.cos (radians r.pickup_latitude) * Real.cos (radians r.pickup_latitude) +
      Real.sin (radians r.pickup_latitude) * Real.sin (radians r.pickup_latitude) = 1 := by
    linear_combination Real.sin_sq_add_cos_sq (radians r.pickup_latitude)
  rw [h, Real.arccos_one, mul_zero]

theorem cos_radians_pos_of (x : ℝ) (h1 : 0 < x) (h2 : x < 90) :
    0 < Real.cos (radians x) := by
  have hpi := Real.pi_pos
  apply Real.cos_pos_of_mem_Ioo
  rw [radians]
  constructor
  · have hx : 0 < x * Real.pi / 180 := by positivity
    nlinarith
  · nlinarith

theorem rideB_distance_pos : 0 < annotate_distance 40.7128 (-74.0060) rideB := by
  have hpi := Real.pi_pos
  have hB1 : rideB.pickup_latitude = (45 : ℝ) := by norm_num [rideB]
  have hB2 : rideB.pickup_longitude = (-80 : ℝ) := by norm_num [rideB]
  unfold annotate_distance
  rw [hB1, hB2]
  have hcosa : 0 < Real.cos (radians 40.7128) :=
    cos_radians_pos_of 40.7128 (by norm_num) (by norm_num)
  have hcosb : 0 < Real.cos (radians 45) :=
    cos_radians_pos_of 45 (by norm_num) (by norm_num)
  have hcd : Real.cos (radians (-80) - radians (-74.0060)) ≤ 1 :=
    Real.cos_le_one _
  have hxy : 0 < Real.cos (radians 40.7128) * Real.cos (radians 45) :=
    mul_pos hcosa hcosb
  have hstep : Real.cos (radians 40.7128) * Real.cos (radians 45) *
      Real.cos (radians (-80) - radians (-74.0060)) ≤
      Real.cos (radians 40.7128) * Real.cos (radians 45) :=
    mul_le_of_le_one_right (le_of_lt hxy) hcd
  have hab : Real.cos (radians 40.7128) * Real.cos (radians 45) +
      Real.sin (radians 40.7128) * Real.sin (radians 45) =
      Real.cos (radians 40.7128 - radians 45) :=
    (Real.cos_sub (radians 40.7128) (radians 45)).symm
  have habne : radians 40.7128 - radians 45 ≠ 0 := by
    rw [radians, radians]
    intro hq
    nlinarith
  have hlow : -(2 * Real.pi) < radians 40.7128 - radians 45 := by
    rw [radians, radians]
    nlinarith
  have hhigh : radians 40.7128 - radians 45 < 2 * Real.pi := by
    rw [radians, radians]
    nlinarith
  have hablt : Real.cos (radians 40.7128 - radians 45) < 1 := by
    rcases lt_or_eq_of_le (Real.cos_le_one (radians 40.7128 - radians 45)) with h | h
    · exact h
    · exact absurd ((Real.cos_eq_one_iff_of_lt_of_lt hlow hhigh).mp h) habne
  have harg : Real.cos (radians 40.7128) * Real.cos (radians 45) *
      Real.cos (radians (-80) - radians (-74.0060)) +
      Real.sin (radians 40.7128) * Real.sin (radians 45) < 1 := by
    calc Real.cos (radians 40.7128) * Real.cos (radians 45) *
        Real.cos (radians (-80) - radians (-74.0060)) +
        Real.sin (radians 40.7128) * Real.sin (radians 45)
        ≤ Real.cos (radians 40.7128) * Real.cos (radians 45) +
          Real.sin (radians 40.7128) * Real.sin (radians 45) := by linarith
      _ = Real.cos (radians 40.7128 - radians 45) := hab
      _ < 1 := hablt
  exact mul_pos (by norm_num) (Real.arccos_pos.mpr harg)

theorem rideA_ne_rideB : rideA ≠ rideB := by
  intro h
  have h2 := congrArg Ride.id_ride h
  simp [rideA, rideB] at h2

theorem pair_perm_cases {α : Type} {a b : α} (hab : a ≠ b) {l : List α}
    (h : l.Perm [a, b]) : l = [a, b] ∨ l = [b, a] := by
  have hlen : l.length = 2 := by simpa using h.length_eq
  obtain ⟨x, y, rfl⟩ := List.length_eq_two.mp hlen
  have hax : a = x ∨ a = y := by
    have := h.mem_iff.mpr (show a ∈ [a, b] by simp)
    simpa using this
  have hbx : b = x ∨ b = y := by
    have := h.mem_iff.mpr (show b ∈ [a, b] by simp)
    simpa using this
  rcases hax with rfl | rfl
  · rcases hbx with rfl | rfl
    · exact absurd rfl hab
    · exact Or.inl rfl
  · rcases hbx with rfl | rfl
    · exact Or.inr rfl
    · exact absurd rfl hab

/-- C4: the annotated distance agrees with the Haversine formula of the
specification for every ride and reference point; a reference point equal to
a ride's exact pickup coordinates yields distance zero; in the concrete
scenario of rides at (40.7128, -74.0060) and (45.0, -80.0) with reference
(40.7128, -74.0060), the first ride has distance zero, the second a strictly
positive distance, and any ascending ordering by distance returns the first
ride before the second. -/
theorem c4_distance_ordering :
    (∀ (lat lng : ℝ) (r : Ride),
      annotate_distance lat lng r =
        distance_km_spec lat lng r.pickup_latitude r.pickup_longitude) ∧
    (∀ r : Ride, annotate_distance r.pickup_latitude r.pickup_longitude r = 0) ∧
    annotate_distance 40.7128 (-74.0060) rideA = 0 ∧
    0 < annotate_distance 40.7128 (-74.0060) rideB ∧
    (∀ out : List Ride,
      ascending_by_distance 40.7128 (-74.0060) [rideA, rideB] out →
        out = [rideA, rideB]) := by
  have hA : annotate_distance 40.7128 (-74.0060) rideA = 0 := by
    have h := annotate_distance_self rideA
    have h1 : rideA.pickup_latitude = (40.7128 : ℝ) := by norm_num [rideA]
    have h2 : rideA.pickup_longitude = (-74.0060 : ℝ) := by norm_num [rideA]
    rw [h1, h2] at h
    exact h
  have hB := rideB_distance_pos
  refine ⟨fun lat lng r => rfl, annotate_distance_self, hA, hB, ?_⟩
  intro out hout
  obtain ⟨hperm, hsort⟩ := hout
  rcases pair_perm_cases rideA_ne_rideB hperm with h | h
  · exact h
  · exfalso
    subst h
    have hle := (List.sorted_cons.mp hsort).1 rideA (by simp)
    rw [hA] at hle
    linarith

theorem c4_distance_ordering_witness :
    ascending_by_distance 40.7128 (-74.0060) [rideA, rideB] [rideA, rideB] ∧
    annotate_distance 40.7128 (-74.0060) rideA = 0 ∧
    [rideA, rideB] = [rideA, rideB] := by
  have h := c4_distance_ordering
  have hasc : ascending_by_distance 40.7128 (-74.0060) [rideA, rideB] [rideA, rideB] := by
    refine ⟨List.Perm.refl _, List.sorted_cons.mpr ⟨?_, List.sorted_singleton _⟩⟩
    intro b hb
    have hb2 : b = rideB := by simpa using hb
    subst hb2
    rw [h.2.2.1]
    linarith [h.2.2.2.1]
  exact ⟨hasc, h.2.2.1, h.2.2.2.2 [rideA, rideB] hasc⟩

theorem ride_get_queryset_skips (p la ln : Option String) (db : List Ride)
    (h : latlng_malformed la ln) :
    ride_get_queryset p la ln db = { rows := db, distance_ref := none } := by
  unfold ride_get_queryset
  split
  · split
    · rename_i lat lng
      split
      · rfl
      · rename_i hne
        split
        · rename_i qla qln hp1 hp2
          exfalso
          have hlat_ne : lat.isEmpty = false := by
            cases hq : lat.isEmpty
            · rfl
            · exact absurd (by simp [hq]) hne
          have hlng_ne : lng.isEmpty = false := by
            cases hq : lng.isEmpty
            · rfl
            · exact absurd (by simp [hq]) hne
          rcases h with h1 | h1
          · rcases h1 with h2 | h2 | ⟨s, hs, hp⟩
            · exact absurd h2 (by simp)
            · have : lat = "" := by simpa using h2
              subst this
              simp [String.isEmpty] at hlat_ne
            · have : s = lat := by simpa using hs.symm
              subst this
              rw [hp1] at hp
              exact absurd hp (by simp)
          · rcases h1 with h2 | h2 | ⟨s, hs, hp⟩
            · exact absurd h2 (by simp)
            · have : lng = "" := by simpa using h2
              subst this
              simp [String.isEmpty] at hlng_ne
            · have : s = lng := by simpa using hs.symm
              subst this
              rw [hp2] at hp
              exact absurd hp (by simp)
        · rfl
    · rfl
  · rfl

theorem get_ordering_base_mem (p : Option String) (t : String)
    (ht : t ∈ get_ordering p) :
    base_term t = "pickup_time" ∨ base_term t = "distance" := by
  rw [get_ordering] at ht
  by_cases hv : (remove_invalid_fields (requested_ordering p)).isEmpty = true
  · rw [if_pos hv] at ht
    have : t = "-pickup_time" := by simpa [default_ordering] using ht
    subst this
    left
    rfl
  · rw [if_neg hv] at ht
    have hmem := List.mem_filter.mp ht
    have hc : ordering_fields.contains (base_term t) = true := hmem.2
    have : base_term t ∈ ordering_fields := by
      simpa using hc
    simpa [ordering_fields] using this

/-- C5, amended: when the ordering parameter requests distance but lat or lng
is missing, empty, or fails to parse, the queryset construction itself raises
no error and silently skips the distance annotation; however, if the
effective ordering still contains the exact distance term, the request as a
whole fails with a field-resolution error, because the term is kept by the
ordering filter and cannot be resolved on the unannotated queryset; the
request succeeds with the fallback ordering only when the effective ordering
contains no distance term. -/
theorem c5_distance_ordering_fallback (p la ln : Option String) (db : List Ride)
    (h : latlng_malformed la ln) :
    ride_get_queryset p la ln db = { rows := db, distance_ref := none } ∧
    ("distance" ∈ (get_ordering p).map base_term →
      ride_list_request p la ln db =
        Except.error "FieldError: cannot resolve keyword distance into field") ∧
    ("distance" ∉ (get_ordering p).map base_term →
      ride_list_request p la ln db =
        Except.ok { rows := db, distance_ref := none }) := by
  have hskip := ride_get_queryset_skips p la ln db h
  refine ⟨hskip, ?_, ?_⟩
  · intro hmem
    obtain ⟨t, ht, hbt⟩ := List.mem_map.mp hmem
    have hres : term_resolvable { rows := db, distance_ref := none } t = false := by
      rw [term_resolvable, hbt]
      rfl
    have hall : (get_ordering p).all
        (term_resolvable { rows := db, distance_ref := none }) = false := by
      cases hq : (get_ordering p).all (term_resolvable { rows := db, distance_ref := none })
      · rfl
      · have := List.all_eq_true.mp hq t ht
        rw [hres] at this
        exact absurd this (by simp)
    rw [ride_list_request, hskip, apply_ordering, if_neg (by simp [hall])]
  · intro hnmem
    have hall : (get_ordering p).all
        (term_resolvable { rows := db, distance_ref := none }) = true := by
      apply List.all_eq_true.mpr
      intro t ht
      rcases get_ordering_base_mem p t ht with hb | hb
      · rw [term_resolvable, hb]
        rfl
      · exact absurd (List.mem_map.mpr ⟨t, ht, hb⟩) hnmem
    rw [ride_list_request, hskip, apply_ordering, if_pos (by simp [hall])]

theorem c5_distance_ordering_fallback_witness :
    ride_get_queryset (some "distance") (some "abc") (some "74") [] =
      { rows := [], distance_ref := none } ∧
    ride_list_request (some "distance") (some "abc") (some "74") [] =
      Except.error "FieldError: cannot resolve keyword distance into field" := by
  have h := c5_distance_ordering_fallback (some "distance") (some "abc") (some "74") []
    (Or.inl (Or.inr (Or.inr ⟨"abc", rfl, by decide⟩)))
  exact ⟨h.1, h.2.1 (by decide)⟩

/-- C5, counterexample to the claim as stated: with ordering requesting
distance and a non-numeric lat, the request fails with a field-resolution
error instead of returning a result under the fallback ordering. -/
theorem c5_counterexample_request_fails :
    ride_list_request (some "distance") (some "abc") (some "-74.0060") [rideA] =
      Except.error "FieldError: cannot resolve keyword distance into field" := by
  rfl

end RidesApi
